import Mathlib

/-!
Verification of the SMP Civic client-side encryption engine
(`frontend/src/utils/encryption.js`, class `SMPCivicCrypto`).

The engine is shallowly embedded: every engine method becomes a Lean
definition translated from the source.  Host-supplied primitives
(WebCrypto's AES-GCM / RSA-OAEP / PBKDF2 / SHA-256, `window.btoa` /
`window.atob`, JSON serialization, `localStorage`) are not repository
code; they are modelled by explicit, executable idealizations, each
marked by a doc comment.  JavaScript byte buffers and strings are both
modelled as `List Nat` of byte values (for strings this is exact for
the ASCII range, where the source's UTF-8 `TextEncoder`/`TextDecoder`
conversion is the identity on code points).  Nondeterministic inputs
drawn inside a method (random IVs, salts, ephemeral keys, seeds, and
`Date` timestamps) are threaded as explicit parameters, so theorems
quantify over every possible draw.
-/

namespace SMPCivicCrypto

/-- A list of byte values: every element is below 256. -/
def bytesOk (l : List Nat) : Prop := ∀ x ∈ l, x < 256

instance (l : List Nat) : Decidable (bytesOk l) :=
  inferInstanceAs (Decidable (∀ x ∈ l, x < 256))

/-- Little-endian 4-byte encoding of a natural number (used by the
idealized models of the host primitives for length prefixes). -/
def natToBytes4 (n : Nat) : List Nat :=
  [n % 256, n / 256 % 256, n / 65536 % 256, n / 16777216 % 256]

/-- Read back a 4-byte little-endian length prefix. -/
def readNat4 : List Nat → Option (Nat × List Nat)
  | b0 :: b1 :: b2 :: b3 :: rest =>
      some (b0 + 256 * b1 + 65536 * b2 + 16777216 * b3, rest)
  | _ => none

/-- Read a single byte of a serialized record. -/
def readByte : List Nat → Option (Nat × List Nat)
  | b :: rest => some (b, rest)
  | [] => none

/-- A length-prefixed field in the idealized serialization models. -/
def lenPrefixed (l : List Nat) : List Nat := natToBytes4 l.length ++ l

/-- Read one length-prefixed field. -/
def readLP (l : List Nat) : Option (List Nat × List Nat) :=
  match readNat4 l with
  | none => none
  | some (n, rest) =>
      if rest.length < n then none else some (rest.take n, rest.drop n)

/-- Byte values of a JavaScript string literal (its code points; all
literals used by the engine are ASCII). -/
def jsStr (s : String) : List Nat := s.data.map Char.toNat

theorem natToBytes4_length (n : Nat) : (natToBytes4 n).length = 4 := rfl

theorem bytesOk_natToBytes4 (n : Nat) : bytesOk (natToBytes4 n) := by
  simp only [bytesOk, natToBytes4]
  intro x hx
  simp only [List.mem_cons, List.not_mem_nil, or_false] at hx
  rcases hx with h | h | h | h <;> subst h <;> omega

theorem natToBytes4_inj {a b : Nat} (ha : a < 4294967296) (hb : b < 4294967296)
    (h : natToBytes4 a = natToBytes4 b) : a = b := by
  simp only [natToBytes4, List.cons.injEq, and_true] at h
  omega

theorem readNat4_append (n : Nat) (r : List Nat) :
    readNat4 (natToBytes4 n ++ r) = some (n % 4294967296, r) := by
  simp only [natToBytes4, List.cons_append, List.nil_append, readNat4]
  congr 1
  congr 1
  omega

theorem readLP_lenPrefixed (x r : List Nat) (hx : x.length < 4294967296) :
    readLP (lenPrefixed x ++ r) = some (x, r) := by
  simp only [lenPrefixed, List.append_assoc, readLP, readNat4_append,
    Nat.mod_eq_of_lt hx]
  rw [if_neg, List.take_left, List.drop_left]
  simp [List.length_append]

/-- Read the final length-prefixed field of a serialized record. -/
theorem readLP_lenPrefixed_nil (x : List Nat) (hx : x.length < 4294967296) :
    readLP (lenPrefixed x) = some (x, []) := by
  have h := readLP_lenPrefixed x [] hx
  rwa [List.append_nil] at h

/-- The base64 alphabet as character codes: A-Z, a-z, 0-9, plus, slash. -/
def b64Alphabet : List Nat :=
  [65, 66, 67, 68, 69, 70, 71, 72, 73, 74, 75, 76, 77, 78, 79, 80, 81, 82,
   83, 84, 85, 86, 87, 88, 89, 90,
   97, 98, 99, 100, 101, 102, 103, 104, 105, 106, 107, 108, 109, 110, 111,
   112, 113, 114, 115, 116, 117, 118, 119, 120, 121, 122,
   48, 49, 50, 51, 52, 53, 54, 55, 56, 57, 43, 47]

/-- Character code of a 6-bit group. -/
def sixToChar (n : Nat) : Nat := b64Alphabet.getD n 0

/-- 6-bit group of a base64 character code. -/
def charToSix (c : Nat) : Nat := b64Alphabet.indexOf c

/-- Model of the host `window.btoa` on a binary string (byte list):
standard base64 encoding with padding character 61, the code of the
equals sign.  The host function rejects code units above 255; the
engine only ever feeds it bytes of a `Uint8Array`. -/
def btoa : List Nat → List Nat
  | [] => []
  | [a] => [sixToChar (a / 4), sixToChar (a % 4 * 16), 61, 61]
  | [a, b] => [sixToChar (a / 4), sixToChar (a % 4 * 16 + b / 16),
               sixToChar (b % 16 * 4), 61]
  | a :: b :: c :: rest =>
      sixToChar (a / 4) :: sixToChar (a % 4 * 16 + b / 16) ::
      sixToChar (b % 16 * 4 + c / 64) :: sixToChar (c % 64) :: btoa rest

/-- Model of the host `window.atob`: base64 decoding.  The host throws
on malformed input; the engine only ever decodes strings produced by
`btoa`, and on those this total model agrees with the host. -/
def atob : List Nat → List Nat
  | e1 :: e2 :: e3 :: e4 :: rest =>
      let s1 := charToSix e1
      let s2 := charToSix e2
      if e3 = 61 then [s1 * 4 + s2 / 16]
      else
        let s3 := charToSix e3
        if e4 = 61 then [s1 * 4 + s2 / 16, s2 % 16 * 16 + s3 / 4]
        else
          (s1 * 4 + s2 / 16) :: (s2 % 16 * 16 + s3 / 4) ::
          (s3 % 4 * 64 + charToSix e4) :: atob rest
  | _ => []

theorem charToSix_sixToChar : ∀ n < 64, charToSix (sixToChar n) = n := by decide

theorem sixToChar_ne_pad : ∀ n < 64, sixToChar n ≠ 61 := by decide

theorem atob_btoa (s : List Nat) (h : bytesOk s) : atob (btoa s) = s := by
  match s with
  | [] => rfl
  | [a] =>
    have ha : a < 256 := h a (by simp)
    simp only [btoa, atob, if_pos rfl, if_true]
    rw [charToSix_sixToChar (a / 4) (by omega),
        charToSix_sixToChar (a % 4 * 16) (by omega)]
    simp only [List.cons.injEq, and_true]
    omega
  | [a, b] =>
    have ha : a < 256 := h a (by simp)
    have hb : b < 256 := h b (by simp)
    simp only [btoa, atob,
      if_neg (sixToChar_ne_pad (b % 16 * 4) (by omega)), if_pos rfl, if_true]
    rw [charToSix_sixToChar (a / 4) (by omega),
        charToSix_sixToChar (a % 4 * 16 + b / 16) (by omega),
        charToSix_sixToChar (b % 16 * 4) (by omega)]
    simp only [List.cons.injEq, and_true]
    omega
  | a :: b :: c :: rest =>
    have ha : a < 256 := h a (by simp)
    have hb : b < 256 := h b (by simp)
    have hc : c < 256 := h c (by simp)
    have ih := atob_btoa rest (fun x hx => h x (by simp [hx]))
    simp only [btoa, atob,
      if_neg (sixToChar_ne_pad (b % 16 * 4 + c / 64) (by omega)),
      if_neg (sixToChar_ne_pad (c % 64) (by omega))]
    rw [charToSix_sixToChar (a / 4) (by omega),
        charToSix_sixToChar (a % 4 * 16 + b / 16) (by omega),
        charToSix_sixToChar (b % 16 * 4 + c / 64) (by omega),
        charToSix_sixToChar (c % 64) (by omega), ih]
    simp only [List.cons.injEq, and_true]
    omega

theorem btoa_length_le (s : List Nat) : (btoa s).length ≤ 2 * s.length + 4 := by
  match s with
  | [] => simp [btoa]
  | [a] => simp [btoa]
  | [a, b] => simp [btoa]
  | a :: b :: c :: rest =>
    have ih := btoa_length_le rest
    simp only [btoa, List.length_cons]
    omega

/-- Role of a WebCrypto `CryptoKey` (its `type` attribute). -/
inductive KeyType where
  | secretKey
  | publicKey
  | privateKey
deriving DecidableEq, Repr

/-- Model of a WebCrypto `CryptoKey` handle.  `raw` is the key material
the Primitive Provider holds behind the handle (for an RSA handle, the
bytes of the generation seed standing in for the pair's modulus);
`extractable` and `usages` record the flags the source passes to
`subtle.generateKey` / `subtle.importKey`.  The idealized primitives
below read only `raw`; usage-restriction checks of the host are not
modelled (no claim depends on them). -/
structure CryptoKey where
  type : KeyType
  algorithm : String
  raw : List Nat
  extractable : Bool
  usages : List String
deriving DecidableEq, Repr

/-- An RSA key pair as returned by `subtle.generateKey`. -/
structure CryptoKeyPair where
  publicKey : CryptoKey
  privateKey : CryptoKey
deriving DecidableEq, Repr

/-- Model of a JavaScript exception crossing the engine boundary:
either a raw host-primitive error (the `OperationError` /
`InvalidAccessError` `DOMException`s WebCrypto rejects with), or an
engine-thrown `Error` with a message.  The host's message text for a
`DOMException` is implementation-defined; `message` models it by the
exception's name. -/
inductive JsError where
  | operationError
  | invalidAccessError
  | error (msg : List Nat)
deriving DecidableEq, Repr

/-- The `message` property read by the source's catch blocks. -/
def JsError.message : JsError → List Nat
  | .operationError => jsStr ("OperationError")
  | .invalidAccessError => jsStr ("InvalidAccessError")
  | .error msg => msg

/-- Keystream byte of the idealized AES-GCM model at position `i`. -/
def padByte (keyRaw iv : List Nat) (i : Nat) : Nat :=
  (keyRaw.sum + iv.sum + i) % 256

/-- Mask a plaintext with the keystream, starting at position `i`. -/
def maskFrom (keyRaw iv : List Nat) : Nat → List Nat → List Nat
  | _, [] => []
  | i, d :: ds => (d + padByte keyRaw iv i) % 256 :: maskFrom keyRaw iv (i + 1) ds

/-- Invert the keystream mask, starting at position `i`. -/
def unmaskFrom (keyRaw iv : List Nat) : Nat → List Nat → List Nat
  | _, [] => []
  | i, c :: cs =>
      (c + 256 - padByte keyRaw iv i) % 256 :: unmaskFrom keyRaw iv (i + 1) cs

/-- Authentication tag of the idealized AES-GCM model: a length-prefixed
image of the key material, so that tag verification succeeds exactly
under the encrypting key (the 128-bit tag length of real GCM is
abstracted). -/
def gcmTag (keyRaw : List Nat) : List Nat := natToBytes4 keyRaw.length ++ keyRaw

/-- Idealized model of the host `subtle.encrypt` for AES-GCM: the
ciphertext is the authentication tag followed by the keystream-masked
plaintext. -/
def aesGcmEncrypt (key : CryptoKey) (iv data : List Nat) : List Nat :=
  gcmTag key.raw ++ maskFrom key.raw iv 0 data

/-- Idealized model of the host `subtle.decrypt` for AES-GCM: verify
the tag against the supplied key, then unmask; `none` models the
`OperationError` rejection on tag mismatch. -/
def aesGcmDecrypt (key : CryptoKey) (iv ct : List Nat) : Option (List Nat) :=
  if ct.take (4 + key.raw.length) = gcmTag key.raw then
    some (unmaskFrom key.raw iv 0 (ct.drop (4 + key.raw.length)))
  else none

/-- Idealized model of the host PBKDF2 (`subtle.deriveKey` with
SHA-256): the derived key material is an injective byte-level image of
password, salt, and iteration count — collisions of the real function
are neglected, and the fixed 256-bit output length is abstracted. -/
def pbkdf2Derive (password salt : List Nat) (iterations : Nat) : List Nat :=
  natToBytes4 password.length ++ password ++
  natToBytes4 salt.length ++ salt ++ natToBytes4 iterations

/-- Idealized model of the host `subtle.digest` for SHA-256: an
injective digest (collision-freedom of the real hash is assumed; the
fixed 256-bit output length is abstracted). -/
def sha256 (data : List Nat) : List Nat := natToBytes4 data.length ++ data

/-- Idealized model of the host `subtle.encrypt` for RSA-OAEP: the
ciphertext determines the plaintext given the matching private key;
OAEP's internal randomization is abstracted away. -/
def rsaOaepEncrypt (publicKey : CryptoKey) (data : List Nat) : List Nat :=
  publicKey.raw ++ data

/-- Idealized model of the host `subtle.decrypt` for RSA-OAEP: strip
the public-key image, failing (the host's `OperationError`) under a
private key of a different pair. -/
def rsaOaepDecrypt (privateKey : CryptoKey) (ct : List Nat) : Option (List Nat) :=
  if ct.take privateKey.raw.length = privateKey.raw then
    some (ct.drop privateKey.raw.length)
  else none

/-- Model of `subtle.exportKey` with format `raw`: hands out the key
material behind an extractable handle; the host throws
`InvalidAccessError` for a non-extractable one. -/
def exportKeyRaw (key : CryptoKey) : Except JsError (List Nat) :=
  if key.extractable then .ok key.raw else .error .invalidAccessError

/-- Model of `subtle.importKey` with format `raw` for AES-GCM. -/
def importAesKeyRaw (raw : List Nat) (extractable : Bool)
    (usages : List String) : CryptoKey :=
  ⟨.secretKey, "AES-GCM", raw, extractable, usages⟩

/-- Source `str2ab`: `TextEncoder().encode` of a string.  JS strings are
modelled as their byte sequences, on which the UTF-8 conversion is the
identity (exact for the ASCII range all engine strings live in). -/
def str2ab (s : List Nat) : List Nat := s

/-- Source `ab2str`: `TextDecoder().decode`, inverse of `str2ab`. -/
def ab2str (buffer : List Nat) : List Nat := buffer

/-- Source `ab2base64`: `window.btoa(String.fromCharCode(...bytes))` —
`String.fromCharCode` turns each byte into the character of that code,
so the composite is base64 over the byte list. -/
def ab2base64 (buffer : List Nat) : List Nat := btoa buffer

/-- Source `base642ab`: `window.atob` followed by reading each character
code into a byte — base64 decoding over the byte list. -/
def base642ab (base64 : List Nat) : List Nat := atob base64

/-- Source `this.keyPrefix`, the localStorage namespace of vault entries. -/
def keyPrefixVal : List Nat := jsStr ("smp_civic_")

/-- Result of `encryptSymmetric` (the spec's EncryptedBlob): base64
ciphertext, base64 IV, and the algorithm tag string. -/
structure EncryptedBlob where
  ciphertext : List Nat
  iv : List Nat
  algorithm : List Nat
deriving DecidableEq, Repr

/-- Source `generateSymmetricKey`: a fresh extractable AES-256-GCM key
with usages encrypt and decrypt; `raw` is the random key material the
host draws. -/
def generateSymmetricKey (raw : List Nat) : CryptoKey :=
  ⟨.secretKey, "AES-GCM", raw, true, ["encrypt", "decrypt"]⟩

/-- Source `deriveKeyFromPassword(password, salt)`: PBKDF2 with SHA-256
at 100000 iterations over the UTF-8 password bytes, producing a
non-extractable AES-GCM key; returns the key together with the salt.
When the caller omits the salt the source draws 16 random bytes — that
draw is the `salt` argument here. -/
def deriveKeyFromPassword (password salt : List Nat) : CryptoKey × List Nat :=
  (⟨.secretKey, "AES-GCM", pbkdf2Derive (str2ab password) salt 100000,
    false, ["encrypt", "decrypt"]⟩, salt)

/-- Source `encryptSymmetric(data, key)`: AES-256-GCM under a fresh
96-bit IV (the host's random draw is the `iv` argument), with
ciphertext and IV base64-encoded into the returned blob. -/
def encryptSymmetric (data : List Nat) (key : CryptoKey) (iv : List Nat) :
    EncryptedBlob :=
  ⟨ab2base64 (aesGcmEncrypt key iv data), ab2base64 iv, jsStr ("AES-GCM")⟩

/-- Source `decryptSymmetric(encryptedData, key)`: base64-decode the
ciphertext and IV, then AES-GCM-decrypt.  A primitive failure (tag
mismatch) propagates to the caller unwrapped — the source has no
try/catch here. -/
def decryptSymmetric (encryptedData : EncryptedBlob) (key : CryptoKey) :
    Except JsError (List Nat) :=
  match aesGcmDecrypt key (base642ab encryptedData.iv)
      (base642ab encryptedData.ciphertext) with
  | some d => .ok d
  | none => .error .operationError

/-- Source `generateAsymmetricKeyPair`: RSA-4096-OAEP with public
exponent 65537 and SHA-256.  The source passes `extractable = true`,
which the host applies to the private key (public keys are always
extractable); the host splits the requested usages so that the public
handle encrypts and the private one decrypts.  `seed` is the host's
generation randomness; both handles reference the same pair, modelled
by sharing the seed bytes as `raw`. -/
def generateAsymmetricKeyPair (seed : Nat) : CryptoKeyPair :=
  ⟨⟨.publicKey, "RSA-OAEP", natToBytes4 seed, true, ["encrypt"]⟩,
   ⟨.privateKey, "RSA-OAEP", natToBytes4 seed, true, ["decrypt"]⟩⟩

/-- Result of `encryptHybrid` (the spec's HybridBundle). -/
structure HybridBundle where
  encryptedKey : List Nat
  encryptedData : EncryptedBlob
  algorithm : List Nat
deriving DecidableEq, Repr

/-- Source `encryptHybrid(data, publicKey)`: generate an ephemeral
AES-256 key (`symRaw` is the host's draw), encrypt the data with it
under a fresh IV (`iv`), export the ephemeral key's raw material and
RSA-OAEP-encrypt it under the recipient public key. -/
def encryptHybrid (data : List Nat) (publicKey : CryptoKey)
    (symRaw iv : List Nat) : Except JsError HybridBundle :=
  let symmetricKey := generateSymmetricKey symRaw
  let encryptedData := encryptSymmetric data symmetricKey iv
  match exportKeyRaw symmetricKey with
  | .error e => .error e
  | .ok exportedKey =>
      .ok ⟨ab2base64 (rsaOaepEncrypt publicKey exportedKey), encryptedData,
           jsStr ("RSA-4096-OAEP+AES-256-GCM")⟩

/-- Modelled from the spec: `decryptHybrid(bundle, recipientPrivateKey)`
is absent from src/ (only `encryptHybrid` is implemented); section 4.5
of the spec defines it as the reverse — RSA-decrypt the wrapped key,
then re-import it and symmetric-decrypt the payload. -/
def decryptHybrid (bundle : HybridBundle) (privateKey : CryptoKey) :
    Except JsError (List Nat) :=
  match rsaOaepDecrypt privateKey (base642ab bundle.encryptedKey) with
  | none => .error .operationError
  | some rawKey =>
      decryptSymmetric bundle.encryptedData
        (importAesKeyRaw rawKey true ["encrypt", "decrypt"])

/-- A browser `File` as consumed by `encryptFile`: name, MIME type and
content bytes (`arrayBuffer()` returns the content). -/
structure JsFile where
  name : List Nat
  type : List Nat
  content : List Nat
deriving DecidableEq, Repr

/-- The File API's `size` attribute: the byte length of the content. -/
def JsFile.size (f : JsFile) : Nat := f.content.length

/-- The metadata record `encryptFile` serializes and encrypts. -/
structure FileMetadata where
  originalName : List Nat
  originalSize : Nat
  mimeType : List Nat
  encrypted : Bool
  timestamp : List Nat
  algorithm : List Nat
deriving DecidableEq, Repr

/-- Idealized model of the host `JSON.stringify` on the metadata
record: an injective byte encoding of the fields in source order, with
`parseMetadata` as its inverse — the engine relies only on the
serialize/parse round trip. -/
def stringifyMetadata (m : FileMetadata) : List Nat :=
  lenPrefixed m.originalName ++ natToBytes4 m.originalSize ++
  lenPrefixed m.mimeType ++ (if m.encrypted then [1] else [0]) ++
  lenPrefixed m.timestamp ++ lenPrefixed m.algorithm

/-- Idealized model of the host `JSON.parse` for the metadata record;
`none` models the `SyntaxError` thrown on malformed input. -/
def parseMetadata (l : List Nat) : Option FileMetadata :=
  match readLP l with
  | none => none
  | some (name, r1) =>
    match readNat4 r1 with
    | none => none
    | some (size, r2) =>
      match readLP r2 with
      | none => none
      | some (mime, r3) =>
        match readByte r3 with
        | none => none
        | some (eb, r4) =>
          match readLP r4 with
          | none => none
          | some (ts, r5) =>
            match readLP r5 with
            | none => none
            | some (alg, r6) =>
              if r6 = [] then some ⟨name, size, mime, eb == 1, ts, alg⟩
              else none

/-- The spec's FileFingerprint: base64 SHA-256 of the plaintext, its
byte length, and a creation timestamp. -/
structure FileFingerprint where
  sha256 : List Nat
  size : Nat
  timestamp : List Nat
deriving DecidableEq, Repr

/-- Source `createFileFingerprint(fileBuffer)`: SHA-256 digest
(base64), byte length, and the current time (`ts`, the value
`new Date().toISOString()` returns at the call). -/
def createFileFingerprint (fileBuffer : List Nat) (ts : List Nat) :
    FileFingerprint :=
  ⟨ab2base64 (sha256 fileBuffer), fileBuffer.length, ts⟩

/-- Source `verifyFileIntegrity(fileBuffer, expectedFingerprint)`:
recompute the fingerprint of the buffer (at the current time `ts`) and
compare only its hash and size against the expected one. -/
def verifyFileIntegrity (fileBuffer : List Nat)
    (expectedFingerprint : FileFingerprint) (ts : List Nat) : Bool :=
  let currentFingerprint := createFileFingerprint fileBuffer ts
  currentFingerprint.sha256 == expectedFingerprint.sha256 &&
    currentFingerprint.size == expectedFingerprint.size

/-- Result of `encryptFile` (the spec's EncryptedFile). -/
structure EncryptedFile where
  encryptedContent : EncryptedBlob
  encryptedMetadata : EncryptedBlob
  salt : List Nat
  fileFingerprint : FileFingerprint
deriving DecidableEq, Repr

/-- Source `encryptFile(file, password)`: derive a key from the
password under a fresh salt, encrypt the file content and the
serialized metadata record under it with fresh IVs, and attach the
base64 salt and the plaintext fingerprint.  The host draws `salt`,
`ivContent` and `ivMeta`; `tsMeta` and `tsFp` are the two
`new Date().toISOString()` reads.  The source's catch block cannot
fire in the model — no primitive on this path fails — so the function
is total. -/
def encryptFile (file : JsFile) (password : List Nat)
    (salt ivContent ivMeta tsMeta tsFp : List Nat) : EncryptedFile :=
  let fileBuffer := file.content
  let dk := deriveKeyFromPassword password salt
  let encrypted := encryptSymmetric fileBuffer dk.1 ivContent
  let metadata : FileMetadata :=
    ⟨file.name, file.size, file.type, true, tsMeta, jsStr ("AES-GCM")⟩
  let encryptedMetadata :=
    encryptSymmetric (str2ab (stringifyMetadata metadata)) dk.1 ivMeta
  ⟨encrypted, encryptedMetadata, ab2base64 dk.2,
   createFileFingerprint fileBuffer tsFp⟩

/-- The `Blob` built by `decryptFile` from the decrypted content and
the MIME type recovered from the metadata. -/
structure JsBlob where
  parts : List Nat
  type : List Nat
deriving DecidableEq, Repr

/-- Result of `decryptFile`. -/
structure DecryptedFile where
  blob : JsBlob
  metadata : FileMetadata
  fingerprint : FileFingerprint
deriving DecidableEq, Repr

/-- Body of the source `decryptFile` before its catch block: re-derive
the key from the stored salt, decrypt and parse the metadata, decrypt
the content, and return blob, metadata and the bundle's fingerprint. -/
def decryptFileInner (encryptedFile : EncryptedFile) (password : List Nat) :
    Except JsError DecryptedFile :=
  let dk := deriveKeyFromPassword password (base642ab encryptedFile.salt)
  match decryptSymmetric encryptedFile.encryptedMetadata dk.1 with
  | .error e => .error e
  | .ok metadataBuffer =>
    match parseMetadata (ab2str metadataBuffer) with
    | none => .error (.error (jsStr ("SyntaxError")))
    | some metadata =>
      match decryptSymmetric encryptedFile.encryptedContent dk.1 with
      | .error e => .error e
      | .ok contentBuffer =>
        .ok ⟨⟨contentBuffer, metadata.mimeType⟩, metadata,
             encryptedFile.fileFingerprint⟩

/-- Source `decryptFile(encryptedFile, password)`: the catch block
rethrows any failure as `Error` with the inner error's message spliced
into the template string. -/
def decryptFile (encryptedFile : EncryptedFile) (password : List Nat) :
    Except JsError DecryptedFile :=
  match decryptFileInner encryptedFile password with
  | .ok r => .ok r
  | .error e => .error (.error (jsStr ("File decryption failed: ") ++ e.message))

/-- Model of the collaborator's `localStorage`: an association list of
string keys to string values; `setItem` shadows any earlier binding. -/
def Storage := List (List Nat × List Nat)

/-- Model of `localStorage.setItem`. -/
def setItem (store : Storage) (k v : List Nat) : Storage := (k, v) :: store

/-- Model of `localStorage.getItem`. -/
def getItem (store : Storage) (k : List Nat) : Option (List Nat) :=
  (List.find? (fun p => p.1 == k) store).map (fun p => p.2)

/-- The vault record `storeKey` persists (the spec's KeyVaultEntry):
the encrypted key material, the base64 wrapping salt, and a
timestamp. -/
structure VaultKeyData where
  encrypted : EncryptedBlob
  salt : List Nat
  timestamp : List Nat
deriving DecidableEq, Repr

/-- Idealized model of the host `JSON.stringify` on the vault record:
an injective byte encoding of its fields in source order, inverted by
`parseKeyData`. -/
def stringifyKeyData (kd : VaultKeyData) : List Nat :=
  lenPrefixed kd.encrypted.ciphertext ++ lenPrefixed kd.encrypted.iv ++
  lenPrefixed kd.encrypted.algorithm ++ lenPrefixed kd.salt ++
  lenPrefixed kd.timestamp

/-- Idealized model of the host `JSON.parse` for the vault record. -/
def parseKeyData (l : List Nat) : Option VaultKeyData :=
  match readLP l with
  | none => none
  | some (ct, r1) =>
    match readLP r1 with
    | none => none
    | some (iv, r2) =>
      match readLP r2 with
      | none => none
      | some (alg, r3) =>
        match readLP r3 with
        | none => none
        | some (salt, r4) =>
          match readLP r4 with
          | none => none
          | some (ts, r5) =>
            if r5 = [] then some ⟨⟨ct, iv, alg⟩, salt, ts⟩ else none

/-- Source `storeKey(keyId, key, password)`: derive a wrapping key from
the password under a fresh salt (`salt` is the host's draw), export
the target key's raw material, encrypt it under a fresh IV (`iv`), and
persist the serialized record under the namespaced id; `ts` is the
`new Date().toISOString()` read.  Returns the updated store. -/
def storeKey (store : Storage) (keyId : List Nat) (key : CryptoKey)
    (password : List Nat) (salt iv ts : List Nat) : Except JsError Storage :=
  let dk := deriveKeyFromPassword password salt
  match exportKeyRaw key with
  | .error e => .error e
  | .ok exportedKey =>
    let encrypted := encryptSymmetric exportedKey dk.1 iv
    let keyData : VaultKeyData := ⟨encrypted, ab2base64 dk.2, ts⟩
    .ok (setItem store (keyPrefixVal ++ keyId) (stringifyKeyData keyData))

/-- Source `retrieveKey(keyId, password)`: look the record up (throwing
`Error` with message Key not found when absent), parse it, re-derive
the wrapping key from the stored salt, decrypt the key material — a
tag-mismatch `OperationError` propagates unwrapped — and re-import it
as a non-extractable AES-GCM key. -/
def retrieveKey (store : Storage) (keyId password : List Nat) :
    Except JsError CryptoKey :=
  match getItem store (keyPrefixVal ++ keyId) with
  | none => .error (.error (jsStr ("Key not found")))
  | some stored =>
    match parseKeyData stored with
    | none => .error (.error (jsStr ("SyntaxError")))
    | some keyData =>
      let dk := deriveKeyFromPassword password (base642ab keyData.salt)
      match decryptSymmetric keyData.encrypted dk.1 with
      | .error e => .error e
      | .ok decryptedKeyData =>
        .ok (importAesKeyRaw decryptedKeyData false ["encrypt", "decrypt"])

/-- Modelled from the spec for claim C5: the spec sentence under test
says the PBKDF2 iteration count is stored alongside the salt in the
persisted vault record; this layout extends the source's record with
that `iterations` field, serialized between salt and timestamp, for
comparison with what `storeKey` actually persists. -/
structure SpecVaultEntry where
  encrypted : EncryptedBlob
  salt : List Nat
  iterations : Nat
  timestamp : List Nat
deriving DecidableEq, Repr

/-- Serialization of the spec-modelled vault layout of claim C5. -/
def stringifySpecVaultEntry (e : SpecVaultEntry) : List Nat :=
  lenPrefixed e.encrypted.ciphertext ++ lenPrefixed e.encrypted.iv ++
  lenPrefixed e.encrypted.algorithm ++ lenPrefixed e.salt ++
  natToBytes4 e.iterations ++ lenPrefixed e.timestamp

/-- Parser of the spec-modelled vault layout of claim C5, inverse of
`stringifySpecVaultEntry`. -/
def parseSpecVaultEntry (l : List Nat) : Option SpecVaultEntry :=
  match readLP l with
  | none => none
  | some (ct, r1) =>
    match readLP r1 with
    | none => none
    | some (iv, r2) =>
      match readLP r2 with
      | none => none
      | some (alg, r3) =>
        match readLP r3 with
        | none => none
        | some (salt, r4) =>
          match readNat4 r4 with
          | none => none
          | some (iters, r5) =>
            match readLP r5 with
            | none => none
            | some (ts, r6) =>
              if r6 = [] then some ⟨⟨ct, iv, alg⟩, salt, iters, ts⟩ else none

theorem unmaskFrom_maskFrom (keyRaw iv : List Nat) :
    ∀ (i : Nat) (d : List Nat), bytesOk d →
      unmaskFrom keyRaw iv i (maskFrom keyRaw iv i d) = d := by
  intro i d
  induction d generalizing i with
  | nil => intro _; rfl
  | cons x xs ih =>
    intro h
    have hx : x < 256 := h x (by simp)
    have hpad : padByte keyRaw iv i < 256 := Nat.mod_lt _ (by omega)
    simp only [maskFrom, unmaskFrom, ih (i + 1) (fun y hy => h y (by simp [hy])),
      List.cons.injEq, and_true]
    omega

theorem bytesOk_maskFrom (keyRaw iv : List Nat) :
    ∀ (i : Nat) (d : List Nat), bytesOk (maskFrom keyRaw iv i d) := by
  intro i d
  induction d generalizing i with
  | nil => intro x hx; cases hx
  | cons y ys ih =>
    intro x hx
    simp only [maskFrom, List.mem_cons] at hx
    rcases hx with h | h
    · subst h; exact Nat.mod_lt _ (by omega)
    · exact ih (i + 1) x h

theorem bytesOk_append {a b : List Nat} (ha : bytesOk a) (hb : bytesOk b) :
    bytesOk (a ++ b) := by
  intro x hx
  rcases List.mem_append.mp hx with h | h
  · exact ha x h
  · exact hb x h

theorem bytesOk_gcmTag {keyRaw : List Nat} (h : bytesOk keyRaw) :
    bytesOk (gcmTag keyRaw) :=
  bytesOk_append (bytesOk_natToBytes4 _) h

theorem bytesOk_aesGcmEncrypt {key : CryptoKey} (iv data : List Nat)
    (h : bytesOk key.raw) : bytesOk (aesGcmEncrypt key iv data) :=
  bytesOk_append (bytesOk_gcmTag h) (bytesOk_maskFrom _ _ _ _)

theorem gcmTag_length (keyRaw : List Nat) :
    (gcmTag keyRaw).length = 4 + keyRaw.length := by
  simp [gcmTag, natToBytes4]
  omega

/-- Decryption under a key holding the same raw material inverts the
idealized AES-GCM encryption. -/
theorem aesGcmDecrypt_aesGcmEncrypt (key key' : CryptoKey) (iv data : List Nat)
    (hraw : key'.raw = key.raw) (hd : bytesOk data) :
    aesGcmDecrypt key' iv (aesGcmEncrypt key iv data) = some data := by
  simp only [aesGcmDecrypt, aesGcmEncrypt, hraw]
  rw [← gcmTag_length key.raw, List.take_left, List.drop_left,
    if_pos rfl, unmaskFrom_maskFrom _ _ _ _ hd]

/-- Decryption under a key holding different raw material fails the
tag check of the idealized AES-GCM model. -/
theorem aesGcmDecrypt_wrong_key (key key' : CryptoKey) (iv iv' data : List Nat)
    (hne : key'.raw ≠ key.raw) (hk : key.raw.length < 4294967296)
    (hk' : key'.raw.length < 4294967296) :
    aesGcmDecrypt key' iv' (aesGcmEncrypt key iv data) = none := by
  simp only [aesGcmDecrypt, aesGcmEncrypt]
  rw [if_neg]
  intro heq
  have hlen4 : (List.take 4 (List.take (4 + key'.raw.length)
      (gcmTag key.raw ++ maskFrom key.raw iv 0 data))) =
      List.take 4 (gcmTag key'.raw) := by rw [heq]
  rw [List.take_take] at hlen4
  have h4 : min 4 (4 + key'.raw.length) = 4 := by omega
  rw [h4] at hlen4
  have htl : List.take 4 (gcmTag key.raw ++ maskFrom key.raw iv 0 data) =
      natToBytes4 key.raw.length := by
    have : List.take 4 (gcmTag key.raw ++ maskFrom key.raw iv 0 data) =
        List.take 4 (gcmTag key.raw) := by
      rw [List.take_append_of_le_length]
      rw [gcmTag_length]; omega
    rw [this]
    simp only [gcmTag]
    rw [← natToBytes4_length key.raw.length, List.take_left]
  have htr : List.take 4 (gcmTag key'.raw) = natToBytes4 key'.raw.length := by
    simp only [gcmTag]
    rw [← natToBytes4_length key'.raw.length, List.take_left]
  rw [htl, htr] at hlen4
  have hlen := natToBytes4_inj hk hk' hlen4
  rw [← hlen] at heq
  have : List.take (4 + key.raw.length)
      (gcmTag key.raw ++ maskFrom key.raw iv 0 data) = gcmTag key.raw := by
    rw [← gcmTag_length key.raw, List.take_left]
  rw [this] at heq
  simp only [gcmTag] at heq
  have := (List.append_inj heq (by rw [hlen])).2
  exact hne (this.symm ▸ rfl)

/-- The engine-level symmetric round trip, for any decrypting handle
holding the same raw key material. -/
theorem decryptSymmetric_encryptSymmetric (data : List Nat)
    (key key' : CryptoKey) (iv : List Nat) (hraw : key'.raw = key.raw)
    (hd : bytesOk data) (hk : bytesOk key.raw) (hiv : bytesOk iv) :
    decryptSymmetric (encryptSymmetric data key iv) key' = .ok data := by
  simp only [decryptSymmetric, encryptSymmetric, ab2base64, base642ab,
    atob_btoa iv hiv, atob_btoa _ (bytesOk_aesGcmEncrypt iv data hk),
    aesGcmDecrypt_aesGcmEncrypt key key' iv data hraw hd]

/-- Decrypting with a handle holding different raw key material fails
with the raw primitive error. -/
theorem decryptSymmetric_wrong_key (data : List Nat) (key key' : CryptoKey)
    (iv : List Nat) (hne : key'.raw ≠ key.raw) (hk : bytesOk key.raw)
    (hiv : bytesOk iv) (hkl : key.raw.length < 4294967296)
    (hkl' : key'.raw.length < 4294967296) :
    decryptSymmetric (encryptSymmetric data key iv) key' =
      .error .operationError := by
  simp only [decryptSymmetric, encryptSymmetric, ab2base64, base642ab,
    atob_btoa iv hiv, atob_btoa _ (bytesOk_aesGcmEncrypt iv data hk),
    aesGcmDecrypt_wrong_key key key' iv iv data hne hkl hkl']

theorem pbkdf2Derive_length (password salt : List Nat) (iterations : Nat) :
    (pbkdf2Derive password salt iterations).length =
      12 + password.length + salt.length := by
  simp [pbkdf2Derive, natToBytes4]
  omega

/-- The idealized PBKDF2 separates salts: same password and iteration
count, different salts, different key material. -/
theorem pbkdf2Derive_salt_inj (password salt salt' : List Nat)
    (iterations : Nat)
    (h : pbkdf2Derive password salt iterations =
         pbkdf2Derive password salt' iterations) : salt = salt' := by
  have hlen : salt.length = salt'.length := by
    have := congrArg List.length h
    rw [pbkdf2Derive_length, pbkdf2Derive_length] at this
    omega
  simp only [pbkdf2Derive, hlen] at h
  have h1 := (List.append_inj h (by simp [hlen])).1
  exact (List.append_inj h1 rfl).2

/-- The idealized PBKDF2 separates passwords: same salt and iteration
count, different passwords, different key material. -/
theorem pbkdf2Derive_password_inj (password password' salt : List Nat)
    (iterations : Nat)
    (h : pbkdf2Derive password salt iterations =
         pbkdf2Derive password' salt iterations) : password = password' := by
  have hlen : password.length = password'.length := by
    have := congrArg List.length h
    rw [pbkdf2Derive_length, pbkdf2Derive_length] at this
    omega
  simp only [pbkdf2Derive, hlen] at h
  have h1 := (List.append_inj h (by simp [hlen])).1
  have h2 := (List.append_inj h1 (by simp [hlen])).1
  have h3 := (List.append_inj h2 (by simp [hlen])).1
  exact (List.append_inj h3 rfl).2

theorem bytesOk_pbkdf2Derive {password salt : List Nat} (iterations : Nat)
    (hp : bytesOk password) (hs : bytesOk salt) :
    bytesOk (pbkdf2Derive password salt iterations) := by
  intro x hx
  simp only [pbkdf2Derive, List.append_assoc, List.mem_append] at hx
  rcases hx with h | h | h | h | h
  · exact bytesOk_natToBytes4 _ x h
  · exact hp x h
  · exact bytesOk_natToBytes4 _ x h
  · exact hs x h
  · exact bytesOk_natToBytes4 _ x h

/-- Raw key material of a password-derived key. -/
theorem deriveKeyFromPassword_raw (password salt : List Nat) :
    ((deriveKeyFromPassword password salt).1).raw =
      pbkdf2Derive password salt 100000 := rfl

/-- The metadata serialize/parse round trip the file pipeline relies on. -/
theorem parseMetadata_stringifyMetadata (m : FileMetadata)
    (h1 : m.originalName.length < 4294967296) (h2 : m.originalSize < 4294967296)
    (h3 : m.mimeType.length < 4294967296) (h4 : m.timestamp.length < 4294967296)
    (h5 : m.algorithm.length < 4294967296) :
    parseMetadata (stringifyMetadata m) = some m := by
  rcases m with ⟨name, size, mime, enc, ts, alg⟩
  simp only at h1 h2 h3 h4 h5
  have hrb : ∀ (b : Nat) (r : List Nat), readByte (b :: r) = some (b, r) :=
    fun _ _ => rfl
  cases enc <;>
    simp only [stringifyMetadata, List.append_assoc, List.singleton_append,
      List.cons_append, List.nil_append, if_true, if_false,
      Bool.false_eq_true, parseMetadata,
      readLP_lenPrefixed _ _ h1, readNat4_append, Nat.mod_eq_of_lt h2,
      readLP_lenPrefixed _ _ h3, hrb, readLP_lenPrefixed _ _ h4,
      readLP_lenPrefixed_nil _ h5, if_pos rfl] <;>
    rfl

/-- The vault-record serialize/parse round trip `retrieveKey` relies on. -/
theorem parseKeyData_stringifyKeyData (kd : VaultKeyData)
    (h1 : kd.encrypted.ciphertext.length < 4294967296)
    (h2 : kd.encrypted.iv.length < 4294967296)
    (h3 : kd.encrypted.algorithm.length < 4294967296)
    (h4 : kd.salt.length < 4294967296) (h5 : kd.timestamp.length < 4294967296) :
    parseKeyData (stringifyKeyData kd) = some kd := by
  rcases kd with ⟨⟨ct, iv, alg⟩, salt, ts⟩
  simp only at h1 h2 h3 h4 h5
  simp only [stringifyKeyData, List.append_assoc, parseKeyData,
    readLP_lenPrefixed _ _ h1, readLP_lenPrefixed _ _ h2,
    readLP_lenPrefixed _ _ h3, readLP_lenPrefixed _ _ h4,
    readLP_lenPrefixed_nil _ h5, if_pos rfl, if_true]

theorem getItem_setItem (store : Storage) (k v : List Nat) :
    getItem (setItem store k v) k = some v := by
  simp [getItem, setItem, List.find?]

theorem maskFrom_length (keyRaw iv : List Nat) :
    ∀ (i : Nat) (d : List Nat), (maskFrom keyRaw iv i d).length = d.length := by
  intro i d
  induction d generalizing i with
  | nil => rfl
  | cons x xs ih => simp [maskFrom, ih]

theorem aesGcmEncrypt_length (key : CryptoKey) (iv d : List Nat) :
    (aesGcmEncrypt key iv d).length = 4 + key.raw.length + d.length := by
  simp only [aesGcmEncrypt, List.length_append, gcmTag_length, maskFrom_length]

/-- What `storeKey` persists: the serialized three-field vault record
under the namespaced id. -/
theorem storeKey_persists (store : Storage) (keyId : List Nat)
    (key : CryptoKey) (password salt iv ts : List Nat)
    (hx : key.extractable = true) :
    storeKey store keyId key password salt iv ts =
      .ok (setItem store (keyPrefixVal ++ keyId)
        (stringifyKeyData
          ⟨encryptSymmetric key.raw (deriveKeyFromPassword password salt).1 iv,
           ab2base64 salt, ts⟩)) := by
  simp [storeKey, exportKeyRaw, hx, deriveKeyFromPassword]

theorem bytesOk_lenPrefixed {l : List Nat} (h : bytesOk l) :
    bytesOk (lenPrefixed l) :=
  bytesOk_append (bytesOk_natToBytes4 _) h

theorem bytesOk_stringifyMetadata {m : FileMetadata}
    (h1 : bytesOk m.originalName) (h2 : bytesOk m.mimeType)
    (h3 : bytesOk m.timestamp) (h4 : bytesOk m.algorithm) :
    bytesOk (stringifyMetadata m) := by
  intro x hx
  simp only [stringifyMetadata, List.append_assoc, List.mem_append] at hx
  rcases hx with h | h | h | h | h | h
  · exact bytesOk_lenPrefixed h1 x h
  · exact bytesOk_natToBytes4 _ x h
  · exact bytesOk_lenPrefixed h2 x h
  · split at h <;> simp only [List.mem_singleton] at h <;> omega
  · exact bytesOk_lenPrefixed h3 x h
  · exact bytesOk_lenPrefixed h4 x h

/-- Decrypting an `encryptFile` bundle with the encrypting password
recovers content, metadata and fingerprint (body before the catch
wrapper). -/
theorem decryptFileInner_encryptFile (file : JsFile)
    (password salt ivContent ivMeta tsMeta tsFp : List Nat)
    (hc : bytesOk file.content) (hnb : bytesOk file.name)
    (hmb : bytesOk file.type) (htsb : bytesOk tsMeta)
    (hp : bytesOk password) (hs : bytesOk salt)
    (hivc : bytesOk ivContent) (hivm : bytesOk ivMeta)
    (hname : file.name.length < 4294967296)
    (hsize : file.content.length < 4294967296)
    (hmime : file.type.length < 4294967296)
    (htsl : tsMeta.length < 4294967296) :
    decryptFileInner (encryptFile file password salt ivContent ivMeta tsMeta tsFp)
        password =
      .ok ⟨⟨file.content, file.type⟩,
           ⟨file.name, file.size, file.type, true, tsMeta, jsStr ("AES-GCM")⟩,
           createFileFingerprint file.content tsFp⟩ := by
  have hkraw : bytesOk ((deriveKeyFromPassword password salt).1).raw :=
    bytesOk_pbkdf2Derive 100000 hp hs
  have halgb : bytesOk (jsStr ("AES-GCM")) := by decide
  have hmeta : bytesOk (stringifyMetadata
      ⟨file.name, file.size, file.type, true, tsMeta, jsStr ("AES-GCM")⟩) :=
    bytesOk_stringifyMetadata hnb hmb htsb halgb
  have hsalt : base642ab (ab2base64 salt) = salt := atob_btoa salt hs
  have hsnd : (deriveKeyFromPassword password salt).2 = salt := rfl
  have halgl : (jsStr ("AES-GCM")).length < 4294967296 := by decide
  simp only [encryptFile, decryptFileInner, hsnd, hsalt, str2ab, ab2str,
    decryptSymmetric_encryptSymmetric _ _ _ _ rfl hmeta hkraw hivm,
    decryptSymmetric_encryptSymmetric _ _ _ _ rfl hc hkraw hivc,
    parseMetadata_stringifyMetadata
      ⟨file.name, file.size, file.type, true, tsMeta, jsStr ("AES-GCM")⟩
      hname hsize hmime htsl halgl]

/-- Decrypting an `encryptFile` bundle with a different password fails
at the metadata decryption with the primitive's raw error (body before
the catch wrapper). -/
theorem decryptFileInner_encryptFile_wrong_password (file : JsFile)
    (password password' salt ivContent ivMeta tsMeta tsFp : List Nat)
    (hp : bytesOk password) (hs : bytesOk salt)
    (hivm : bytesOk ivMeta) (hpne : password' ≠ password)
    (hpl : password.length < 1048576) (hpl' : password'.length < 1048576)
    (hsl : salt.length < 1048576) :
    decryptFileInner (encryptFile file password salt ivContent ivMeta tsMeta tsFp)
        password' = .error JsError.operationError := by
  have hkraw : bytesOk ((deriveKeyFromPassword password salt).1).raw :=
    bytesOk_pbkdf2Derive 100000 hp hs
  have hsalt : base642ab (ab2base64 salt) = salt := atob_btoa salt hs
  have hraw_ne : ((deriveKeyFromPassword password' salt).1).raw ≠
      ((deriveKeyFromPassword password salt).1).raw := fun h =>
    hpne (pbkdf2Derive_password_inj password' password salt 100000 h)
  have hl : ((deriveKeyFromPassword password salt).1).raw.length < 4294967296 := by
    rw [deriveKeyFromPassword_raw, pbkdf2Derive_length]
    omega
  have hl' : ((deriveKeyFromPassword password' salt).1).raw.length < 4294967296 := by
    rw [deriveKeyFromPassword_raw, pbkdf2Derive_length]
    omega
  have hsnd : (deriveKeyFromPassword password salt).2 = salt := rfl
  simp only [encryptFile, decryptFileInner, hsnd, hsalt, str2ab,
    decryptSymmetric_wrong_key _ _ _ _ hraw_ne hkraw hivm hl hl']

end SMPCivicCrypto

deriving instance DecidableEq for Except

open SMPCivicCrypto

/-- Claim C2: for every byte sequence d and every AES-256-GCM key k
(and every IV the host draws inside `encryptSymmetric`), decrypting the
EncryptedBlob returned by `encryptSymmetric(d, k)` with the same key k
returns exactly d. -/
theorem C2_symmetric_round_trip (d : List Nat) (key : CryptoKey)
    (iv : List Nat) (hd : bytesOk d) (hk : bytesOk key.raw)
    (hiv : bytesOk iv) :
    decryptSymmetric (encryptSymmetric d key iv) key = .ok d :=
  decryptSymmetric_encryptSymmetric d key key iv rfl hd hk hiv

/-- Witness for C2 at the concrete data `hello world`, a concrete key
and a concrete IV. -/
theorem C2_witness :
    decryptSymmetric
        (encryptSymmetric (jsStr ("hello world")) (generateSymmetricKey [1, 2, 3])
          [4, 5, 6])
        (generateSymmetricKey [1, 2, 3]) = .ok (jsStr ("hello world")) :=
  C2_symmetric_round_trip (jsStr ("hello world")) (generateSymmetricKey [1, 2, 3])
    [4, 5, 6] (by decide) (by decide) (by decide)

/-- Claim C1: for every byte sequence d and RSA pair, hybrid decryption
with the matching private key recovers d, and hybrid decryption of the
same bundle with the private key of a different pair fails.  The
decryption side is the spec-modelled `decryptHybrid` (absent from
src/); quantification is over the ephemeral AES key, the IV, and both
generation seeds. -/
theorem C1_hybrid_round_trip (d symRaw iv : List Nat) (seed seed' : Nat)
    (hd : bytesOk d) (hs : bytesOk symRaw) (hiv : bytesOk iv)
    (hseed : seed < 4294967296) (hseed' : seed' < 4294967296)
    (hne : seed' ≠ seed) :
    ((encryptHybrid d (generateAsymmetricKeyPair seed).publicKey symRaw iv).bind
        fun bundle =>
          decryptHybrid bundle (generateAsymmetricKeyPair seed).privateKey) =
      .ok d ∧
    ((encryptHybrid d (generateAsymmetricKeyPair seed).publicKey symRaw iv).bind
        fun bundle =>
          decryptHybrid bundle (generateAsymmetricKeyPair seed').privateKey) =
      .error JsError.operationError := by
  have hwrap : bytesOk (natToBytes4 seed ++ symRaw) :=
    bytesOk_append (bytesOk_natToBytes4 seed) hs
  have henc : encryptHybrid d (generateAsymmetricKeyPair seed).publicKey symRaw iv
      = .ok ⟨ab2base64 (natToBytes4 seed ++ symRaw),
             encryptSymmetric d (generateSymmetricKey symRaw) iv,
             jsStr ("RSA-4096-OAEP+AES-256-GCM")⟩ := rfl
  have hdec : base642ab (ab2base64 (natToBytes4 seed ++ symRaw)) =
      natToBytes4 seed ++ symRaw := atob_btoa _ hwrap
  have htake : (natToBytes4 seed ++ symRaw).take 4 = natToBytes4 seed := by
    rw [← natToBytes4_length seed]
    exact List.take_left _ _
  have hdrop : (natToBytes4 seed ++ symRaw).drop 4 = symRaw := by
    rw [← natToBytes4_length seed]
    exact List.drop_left _ _
  constructor
  · rw [henc]
    simp only [Except.bind, decryptHybrid, generateAsymmetricKeyPair, hdec,
      rsaOaepDecrypt, natToBytes4_length, htake, hdrop, if_pos rfl, if_true]
    exact decryptSymmetric_encryptSymmetric d (generateSymmetricKey symRaw)
      (importAesKeyRaw symRaw true ["encrypt", "decrypt"]) iv rfl hd hs hiv
  · rw [henc]
    simp only [Except.bind, decryptHybrid, generateAsymmetricKeyPair, hdec,
      rsaOaepDecrypt, natToBytes4_length, htake]
    rw [if_neg]
    intro h
    exact hne (natToBytes4_inj hseed hseed' h).symm

/-- Witness for C1 at concrete data, ephemeral key, IV, and the two
seeds 0 and 1. -/
theorem C1_witness :
    ((encryptHybrid (jsStr ("ping")) (generateAsymmetricKeyPair 0).publicKey
        [7, 7] [3, 4]).bind
      fun bundle =>
        decryptHybrid bundle (generateAsymmetricKeyPair 0).privateKey) =
      .ok (jsStr ("ping")) ∧
    ((encryptHybrid (jsStr ("ping")) (generateAsymmetricKeyPair 0).publicKey
        [7, 7] [3, 4]).bind
      fun bundle =>
        decryptHybrid bundle (generateAsymmetricKeyPair 1).privateKey) =
      .error JsError.operationError :=
  C1_hybrid_round_trip (jsStr ("ping")) [7, 7] [3, 4] 0 1 (by decide) (by decide)
    (by decide) (by decide) (by decide) (by decide)

/-- Counterexample for claim C5: at a concrete `storeKey` call the value
persisted under the namespaced id does not parse as the spec-modelled
layout that carries an iteration count between the salt and the
timestamp — no iteration count is stored in the record. -/
theorem C5_counterexample :
    ((storeKey [] (jsStr ("k1")) (generateSymmetricKey [9, 9]) (jsStr ("pw1"))
          [1] [2] (jsStr ("TS"))).toOption.bind
        fun st => getItem st (keyPrefixVal ++ jsStr ("k1"))).map
      parseSpecVaultEntry = some none := by
  decide

/-- Claim C5 as amended: the record `storeKey` persists contains exactly
the encrypted key material, the base64 salt, and the timestamp — the
spec's section-6 layout — and no PBKDF2 iteration count; retrieval
assumes the fixed default of 100000 iterations. -/
theorem C5_vault_record_no_iterations (store : Storage) (keyId : List Nat)
    (key : CryptoKey) (password salt iv ts : List Nat)
    (hx : key.extractable = true) :
    storeKey store keyId key password salt iv ts =
      .ok (setItem store (keyPrefixVal ++ keyId)
        (stringifyKeyData
          ⟨encryptSymmetric key.raw (deriveKeyFromPassword password salt).1 iv,
           ab2base64 salt, ts⟩)) :=
  storeKey_persists store keyId key password salt iv ts hx

/-- Witness for the amended C5 at a concrete store call. -/
theorem C5_witness :
    storeKey [] (jsStr ("k1")) (generateSymmetricKey [9, 9]) (jsStr ("pw1"))
        [1] [2] (jsStr ("TS")) =
      .ok (setItem [] (keyPrefixVal ++ jsStr ("k1"))
        (stringifyKeyData
          ⟨encryptSymmetric (generateSymmetricKey [9, 9]).raw
             (deriveKeyFromPassword (jsStr ("pw1")) [1]).1 [2],
           ab2base64 [1], jsStr ("TS")⟩)) :=
  C5_vault_record_no_iterations [] (jsStr ("k1")) (generateSymmetricKey [9, 9])
    (jsStr ("pw1")) [1] [2] (jsStr ("TS")) (by decide)

/-- Counterexample for claim C3: `decryptSymmetric` is a public engine
operation, and on a wrong-key input the error crossing the engine
boundary is the host primitive's raw OperationError itself — not one of
the engine taxonomy errors, contradicting the claim that a raw
primitive-level error is never exposed to the collaborator. -/
theorem C3_counterexample :
    decryptSymmetric
        (encryptSymmetric (jsStr ("data")) (generateSymmetricKey [1]) [2, 3])
        (generateSymmetricKey [9]) = .error JsError.operationError := by
  decide

/-- Claim C3 as amended: the engine does not wrap primitive failures of
the symmetric decrypt operation at all — `decryptSymmetric` either
succeeds or surfaces the primitive's raw OperationError unchanged (only
the file-pipeline entry points re-wrap errors, and `retrieveKey` maps a
missing id to an engine Error). -/
theorem C3_decrypt_error_passthrough (blob : EncryptedBlob) (key : CryptoKey) :
    (∃ d, decryptSymmetric blob key = .ok d) ∨
      decryptSymmetric blob key = .error JsError.operationError := by
  unfold decryptSymmetric
  cases aesGcmDecrypt key (base642ab blob.iv) (base642ab blob.ciphertext) with
  | none => exact Or.inr rfl
  | some d => exact Or.inl ⟨d, rfl⟩

/-- Counterexample for claim C4: the private handle of a generated RSA
pair does not have its extractable flag cleared — the source passes
`extractable = true` to `subtle.generateKey`, so the claimed
non-exportability is false already for the pair generated from seed 0. -/
theorem C4_counterexample :
    ¬((generateAsymmetricKeyPair 0).privateKey.extractable = false) := by
  decide

/-- Claim C4 as amended: every private handle produced by
`generateAsymmetricKeyPair` is created exportable (the source requests
`extractable = true`, which the host applies to the private key), so
`subtle.exportKey` on the private handle succeeds rather than being
blocked by this component. -/
theorem C4_private_key_extractable (seed : Nat) :
    (generateAsymmetricKeyPair seed).privateKey.extractable = true ∧
      exportKeyRaw (generateAsymmetricKeyPair seed).privateKey =
        .ok (natToBytes4 seed) :=
  ⟨rfl, rfl⟩

/-- Claim C6: key derivation is a pure function of password and salt
(PBKDF2-SHA-256 at 100000 iterations), and for a fixed password two
distinct salts yield distinct derived key material. -/
theorem C6_derive_deterministic_and_salt_separating :
    (∀ password salt : List Nat,
      ((deriveKeyFromPassword password salt).1).raw =
        pbkdf2Derive password salt 100000) ∧
    (∀ password salt salt' : List Nat, salt ≠ salt' →
      ((deriveKeyFromPassword password salt).1).raw ≠
        ((deriveKeyFromPassword password salt').1).raw) :=
  ⟨fun _ _ => rfl,
   fun p s s' hne h => hne (pbkdf2Derive_salt_inj p s s' 100000 h)⟩

/-- Witness for C6 at a concrete password and two concrete salts. -/
theorem C6_witness :
    ((deriveKeyFromPassword [1] [2]).1).raw ≠
      ((deriveKeyFromPassword [1] [3]).1).raw :=
  C6_derive_deterministic_and_salt_separating.2 [1] [2] [3] (by decide)

/-- Claim C7: the fingerprint of the EncryptedFile returned by
`encryptFile` is computed over the original plaintext bytes — its hash
is the SHA-256 of the plaintext and its size the plaintext byte
length — never over ciphertext. -/
theorem C7_fingerprint_over_plaintext (file : JsFile)
    (password salt ivContent ivMeta tsMeta tsFp : List Nat) :
    (encryptFile file password salt ivContent ivMeta tsMeta tsFp).fileFingerprint
      = ⟨ab2base64 (sha256 file.content), file.content.length, tsFp⟩ := rfl

/-- Claim C8: for every file, metadata and password, decrypting the
`encryptFile` bundle with the same password returns the original
content and matching metadata, while decrypting it with any different
password fails with the engine's file-decryption failure error (the
code's realization of DecryptionFailure: the wrapped
`File decryption failed:` Error). -/
theorem C8_file_round_trip_and_wrong_password (file : JsFile)
    (password password' salt ivContent ivMeta tsMeta tsFp : List Nat)
    (hc : bytesOk file.content) (hnb : bytesOk file.name)
    (hmb : bytesOk file.type) (htsb : bytesOk tsMeta)
    (hp : bytesOk password) (hs : bytesOk salt)
    (hivc : bytesOk ivContent) (hivm : bytesOk ivMeta)
    (hname : file.name.length < 4294967296)
    (hsize : file.content.length < 4294967296)
    (hmime : file.type.length < 4294967296)
    (htsl : tsMeta.length < 4294967296)
    (hpne : password' ≠ password)
    (hpl : password.length < 1048576) (hpl' : password'.length < 1048576)
    (hsl : salt.length < 1048576) :
    decryptFile (encryptFile file password salt ivContent ivMeta tsMeta tsFp)
        password =
      .ok ⟨⟨file.content, file.type⟩,
           ⟨file.name, file.size, file.type, true, tsMeta, jsStr ("AES-GCM")⟩,
           createFileFingerprint file.content tsFp⟩ ∧
    decryptFile (encryptFile file password salt ivContent ivMeta tsMeta tsFp)
        password' =
      .error (.error (jsStr ("File decryption failed: ") ++
        jsStr ("OperationError"))) := by
  constructor
  · simp only [decryptFile, decryptFileInner_encryptFile file password salt
      ivContent ivMeta tsMeta tsFp hc hnb hmb htsb hp hs hivc hivm hname hsize
      hmime htsl]
  · simp only [decryptFile, decryptFileInner_encryptFile_wrong_password file
      password password' salt ivContent ivMeta tsMeta tsFp hp hs hivm hpne
      hpl hpl' hsl, JsError.message]

/-- Witness for C8: the spec's end-to-end scenario — the plaintext
`hello world` as a file under password `Sup3rSecret!`, decrypted with
the same password and with password `wrong`. -/
theorem C8_witness :
    decryptFile
        (encryptFile ⟨jsStr ("a.txt"), jsStr ("text/plain"), jsStr ("hello world")⟩
          (jsStr ("Sup3rSecret!")) [1, 2] [3] [4] [5] [6])
        (jsStr ("Sup3rSecret!")) =
      .ok ⟨⟨jsStr ("hello world"), jsStr ("text/plain")⟩,
           ⟨jsStr ("a.txt"),
            JsFile.size ⟨jsStr ("a.txt"), jsStr ("text/plain"), jsStr ("hello world")⟩,
            jsStr ("text/plain"), true, [5], jsStr ("AES-GCM")⟩,
           createFileFingerprint (jsStr ("hello world")) [6]⟩ ∧
    decryptFile
        (encryptFile ⟨jsStr ("a.txt"), jsStr ("text/plain"), jsStr ("hello world")⟩
          (jsStr ("Sup3rSecret!")) [1, 2] [3] [4] [5] [6])
        (jsStr ("wrong")) =
      .error (.error (jsStr ("File decryption failed: ") ++
        jsStr ("OperationError"))) :=
  C8_file_round_trip_and_wrong_password
    ⟨jsStr ("a.txt"), jsStr ("text/plain"), jsStr ("hello world")⟩
    (jsStr ("Sup3rSecret!")) (jsStr ("wrong")) [1, 2] [3] [4] [5] [6]
    (by decide) (by decide) (by decide) (by decide) (by decide) (by decide)
    (by decide) (by decide) (by decide) (by decide) (by decide) (by decide)
    (by decide) (by decide) (by decide) (by decide)

/-- Claim C9: after `storeKey(id, key, password)`, `retrieveKey` with
the same password yields a handle carrying the same raw key material
as the stored key — usable to decrypt data the original key
encrypted — while `retrieveKey` with any different password fails. -/
theorem C9_vault_round_trip (store : Storage) (keyId : List Nat)
    (key : CryptoKey) (password password' salt iv ts d iv2 : List Nat)
    (hx : key.extractable = true) (hk : bytesOk key.raw)
    (hp : bytesOk password) (hs : bytesOk salt) (hiv : bytesOk iv)
    (hd : bytesOk d) (hiv2 : bytesOk iv2)
    (hkl : key.raw.length < 1048576) (hivl : iv.length < 1048576)
    (hpl : password.length < 1048576) (hpl' : password'.length < 1048576)
    (hsl : salt.length < 1048576) (htsl : ts.length < 4294967296)
    (hpne : password' ≠ password) :
    ((storeKey store keyId key password salt iv ts).bind
        fun st => retrieveKey st keyId password).map (fun k => k.raw) =
      .ok key.raw ∧
    ((storeKey store keyId key password salt iv ts).bind
        fun st => retrieveKey st keyId password).map
        (fun k => decryptSymmetric (encryptSymmetric d key iv2) k) =
      .ok (.ok d) ∧
    ((storeKey store keyId key password salt iv ts).bind
        fun st => retrieveKey st keyId password') =
      .error JsError.operationError := by
  have hkraw : bytesOk ((deriveKeyFromPassword password salt).1).raw :=
    bytesOk_pbkdf2Derive 100000 hp hs
  have hsalt : base642ab (ab2base64 salt) = salt := atob_btoa salt hs
  have hctl : (btoa (aesGcmEncrypt (deriveKeyFromPassword password salt).1 iv
      key.raw)).length < 4294967296 := by
    have h1 := btoa_length_le
      (aesGcmEncrypt (deriveKeyFromPassword password salt).1 iv key.raw)
    have h2 := aesGcmEncrypt_length (deriveKeyFromPassword password salt).1
      iv key.raw
    have h3 : ((deriveKeyFromPassword password salt).1).raw.length =
        12 + password.length + salt.length := by
      rw [deriveKeyFromPassword_raw, pbkdf2Derive_length]
    omega
  have hivb : (btoa iv).length < 4294967296 := by
    have := btoa_length_le iv
    omega
  have hsb : (btoa salt).length < 4294967296 := by
    have := btoa_length_le salt
    omega
  have halg : (jsStr ("AES-GCM")).length < 4294967296 := by decide
  have hparse := parseKeyData_stringifyKeyData
    ⟨encryptSymmetric key.raw (deriveKeyFromPassword password salt).1 iv,
     ab2base64 salt, ts⟩ hctl hivb halg hsb htsl
  have hret : retrieveKey (setItem store (keyPrefixVal ++ keyId)
      (stringifyKeyData
        ⟨encryptSymmetric key.raw (deriveKeyFromPassword password salt).1 iv,
         ab2base64 salt, ts⟩)) keyId password =
      .ok (importAesKeyRaw key.raw false ["encrypt", "decrypt"]) := by
    simp only [retrieveKey, getItem_setItem, hparse, hsalt,
      decryptSymmetric_encryptSymmetric key.raw
        (deriveKeyFromPassword password salt).1
        (deriveKeyFromPassword password salt).1 iv rfl hk hkraw hiv]
  have hraw_ne : ((deriveKeyFromPassword password' salt).1).raw ≠
      ((deriveKeyFromPassword password salt).1).raw := fun h =>
    hpne (pbkdf2Derive_password_inj password' password salt 100000 h)
  have hl : ((deriveKeyFromPassword password salt).1).raw.length <
      4294967296 := by
    rw [deriveKeyFromPassword_raw, pbkdf2Derive_length]
    omega
  have hl' : ((deriveKeyFromPassword password' salt).1).raw.length <
      4294967296 := by
    rw [deriveKeyFromPassword_raw, pbkdf2Derive_length]
    omega
  have hret' : retrieveKey (setItem store (keyPrefixVal ++ keyId)
      (stringifyKeyData
        ⟨encryptSymmetric key.raw (deriveKeyFromPassword password salt).1 iv,
         ab2base64 salt, ts⟩)) keyId password' =
      .error JsError.operationError := by
    simp only [retrieveKey, getItem_setItem, hparse, hsalt,
      decryptSymmetric_wrong_key key.raw
        (deriveKeyFromPassword password salt).1
        (deriveKeyFromPassword password' salt).1 iv hraw_ne hkraw hiv hl hl']
  rw [storeKey_persists store keyId key password salt iv ts hx]
  refine ⟨?_, ?_, ?_⟩
  · simp only [Except.bind, hret, Except.map]
    rfl
  · simp only [Except.bind, hret, Except.map,
      decryptSymmetric_encryptSymmetric d key
        (importAesKeyRaw key.raw false ["encrypt", "decrypt"]) iv2 rfl hd hk
        hiv2]
  · simp only [Except.bind, hret']

/-- Witness for C9 at a concrete store, id, key, passwords, salt, IVs,
timestamp and probe data. -/
theorem C9_witness :
    ((storeKey [] (jsStr ("k1")) (generateSymmetricKey [9, 9]) (jsStr ("pw1"))
          [1] [2] (jsStr ("TS"))).bind
        fun st => retrieveKey st (jsStr ("k1")) (jsStr ("pw1"))).map
        (fun k => k.raw) = .ok (generateSymmetricKey [9, 9]).raw ∧
    ((storeKey [] (jsStr ("k1")) (generateSymmetricKey [9, 9]) (jsStr ("pw1"))
          [1] [2] (jsStr ("TS"))).bind
        fun st => retrieveKey st (jsStr ("k1")) (jsStr ("pw1"))).map
        (fun k =>
          decryptSymmetric (encryptSymmetric [5, 6] (generateSymmetricKey [9, 9])
            [7]) k) = .ok (.ok [5, 6]) ∧
    ((storeKey [] (jsStr ("k1")) (generateSymmetricKey [9, 9]) (jsStr ("pw1"))
          [1] [2] (jsStr ("TS"))).bind
        fun st => retrieveKey st (jsStr ("k1")) (jsStr ("pw2"))) =
      .error JsError.operationError :=
  C9_vault_round_trip [] (jsStr ("k1")) (generateSymmetricKey [9, 9])
    (jsStr ("pw1")) (jsStr ("pw2")) [1] [2] (jsStr ("TS")) [5, 6] [7]
    (by decide) (by decide) (by decide) (by decide) (by decide) (by decide)
    (by decide) (by decide) (by decide) (by decide) (by decide) (by decide)
    (by decide) (by decide)

/-- Claim C10: `verifyFileIntegrity` accepts the fingerprint of the
same data taken at any earlier time, because it compares only the hash
and size fields and ignores the timestamp — even though fingerprints
taken at different times differ as whole records. -/
theorem C10_integrity_ignores_timestamp (d t1 t2 : List Nat) :
    verifyFileIntegrity d (createFileFingerprint d t1) t2 = true ∧
      (t1 ≠ t2 → createFileFingerprint d t1 ≠ createFileFingerprint d t2) := by
  constructor
  · simp [verifyFileIntegrity, createFileFingerprint]
  · intro hne h
    exact hne (congrArg FileFingerprint.timestamp h)

/-- Witness for C10 at concrete data and two concrete timestamps. -/
theorem C10_witness :
    verifyFileIntegrity [7, 8] (createFileFingerprint [7, 8] [1]) [2] = true ∧
      createFileFingerprint [7, 8] [1] ≠ createFileFingerprint [7, 8] [2] :=
  ⟨(C10_integrity_ignores_timestamp [7, 8] [1] [2]).1,
   (C10_integrity_ignores_timestamp [7, 8] [1] [2]).2 (by decide)⟩
